import Mathlib

/-!
Verification development for the WhatsApp-Portable-Builder repository
(`buildWhatsApp-Portable.py`).

The script is a linear build pipeline: provision a Node.js/npm toolchain
(`ensure_node`), materialize an Electron project directory (`scaffold`),
then install the dependency and run the packager (`build`).

Shallow embedding conventions:
* The on-disk state is an association list from paths (lists of path
  components) to file contents (strings); directories are represented by
  the files below them.  `st_size` of a file is the length of its content.
* External subprocesses (npm install, the packager, `os.startfile`) are
  modelled by oracle parameters carrying their observable outcome: the set
  of files they create, their exit status, or the exception they raise.
* `ensure_node` is modelled as a function from an environment oracle
  (results of `shutil.which`, version queries, the user prompt, the remote
  version index, privilege level) to the list of side effects it performs
  plus an `Except` outcome; `sys.exit` and uncaught Python exceptions both
  become `Except.error`.
* The handlers installed by the generated `main.js` (permission requests,
  `will-navigate`, the window-open handler) are embedded as Lean functions
  of the only templated input, the media flag; the literal text of the
  generated files is also embedded, so that claims about file contents can
  be stated byte-for-byte.
-/

/-- Fixed scaffold directory name, `APP_DIR` in the script. -/
def APP_DIR : String := "WhatsApp-Electron"

/-- Fixed packaged application name, `APP_NAME` in the script. -/
def APP_NAME : String := "WhatsAppPortabler"

/-- Fixed user-agent override, `UA_STRING` in the script. -/
def UA_STRING : String :=
"Mozilla/5.0 (Windows NT 10.0; Win64; x64) AppleWebKit/537.36 (KHTML, like Gecko) Chrome/128.0.0.0 Safari/537.36"

/-- Literal content of the generated `package.json` (the `pkg_json` string
in `scaffold`). -/
def pkg_json : String :=
"\x7b
  \"name\": \"whatsapp-electron\",
  \"version\": \"4.20.0\",
  \"private\": true,
  \"main\": \"main.js\",
  \"scripts\": \x7b \"start\": \"electron .\" \x7d,
  \"devDependencies\": \x7b \"electron\": \"^31.0.0\" \x7d
\x7d
"

/-- Text of the Python expression `str(allow_media).lower()` interpolated
into the `main.js` template. -/
def allow_media_literal (allow_media : Bool) : String :=
if allow_media then "true" else "false"

/-- Part of the generated `main.js` before the interpolated media flag
(the `main_js` f-string in `scaffold`, with `\x7b\x7b`/`\x7d\x7d` undoubled and
`UA_STRING` substituted). -/
def main_js_head : String :=
"const \x7b app, BrowserWindow, shell, session \x7d = require(\"electron\");
const path = require(\"path\");
if (!app.requestSingleInstanceLock()) app.quit();
app.setAppUserModelId(\"WhatsAppPortabler\");
app.setPath(\"userData\", path.join(process.cwd(), \"Data\"));
function createWindow() \x7b
  const win = new BrowserWindow(\x7b
    width: 1100, height: 750, backgroundColor: \"#121212\",
    autoHideMenuBar: true, title: \"WhatsApp\",
    webPreferences: \x7b
      preload: path.join(__dirname, \"preload.js\"),
      contextIsolation: true, nodeIntegration: false,
      sandbox: true, spellcheck: true
    \x7d
  \x7d);
  const ua = \"" ++ UA_STRING ++ "\";
  win.webContents.setUserAgent(ua);
  win.loadURL(\"https://web.whatsapp.com\");
  win.webContents.setWindowOpenHandler((\x7burl\x7d) => \x7b shell.openExternal(url); return \x7b action: \"deny\" \x7d; \x7d);
  // Block in-app navigations away from WhatsApp
  win.webContents.on(\"will-navigate\", (e, url) => \x7b
    if (!url.startsWith(\"https://web.whatsapp.com/\")) \x7b e.preventDefault(); shell.openExternal(url); \x7d
  \x7d);
  const allowMedia = "

/-- Part of the generated `main.js` after the interpolated media flag. -/
def main_js_tail : String :=
";
  session.defaultSession.setPermissionRequestHandler((wc, permission, cb) => \x7b
    if (permission === \"media\") return cb(allowMedia);
    if (permission === \"notifications\") return cb(true);
    if (permission === \"display-capture\") return cb(true);
    cb(false);
  \x7d);
\x7d
app.whenReady().then(createWindow);
app.on(\"second-instance\", () => \x7b
  const w = BrowserWindow.getAllWindows()[0];
  if (w) w.focus();
\x7d);
app.on(\"window-all-closed\", () => app.quit());"

/-- Full content of the generated `main.js` as a function of the media
flag, the only templated runtime input. -/
def main_js (allow_media : Bool) : String :=
main_js_head ++ allow_media_literal allow_media ++ main_js_tail

/-- Literal content of the generated `preload.js` (the `preload_js` string
in `scaffold`). -/
def preload_js : String := "// Minimal preload; no Node exposure.\n"

/-- Fixed origin prefix checked by the `will-navigate` handler of the
generated entry script. -/
def whatsapp_origin : String := "https://web.whatsapp.com/"

/-- Behaviour of the permission-request handler installed by the generated
entry script: `media` is answered with the configured flag, `notifications`
and `display-capture` with `true`, everything else with `false`.  This is
the shallow embedding of the `setPermissionRequestHandler` callback in the
`main_js` template. -/
def permission_request_handler (allowMedia : Bool) (permission : String) : Bool :=
if permission == "media" then allowMedia
else if permission == "notifications" then true
else if permission == "display-capture" then true
else false

/-- Observable outcome of firing one navigation or window-open event:
whether the default in-window behaviour was prevented, and the list of
URLs handed to `shell.openExternal`. -/
structure NavOutcome where
  prevented : Bool
  openedExternal : List String
deriving DecidableEq, Repr

/-- Behaviour of the `will-navigate` handler of the generated entry
script: a URL that does not start with the fixed origin has its in-window
navigation prevented and is opened externally; any other URL is left
alone. -/
def will_navigate_handler (url : String) : NavOutcome :=
if !(url.startsWith whatsapp_origin) then
  { prevented := true, openedExternal := [url] }
else
  { prevented := false, openedExternal := [] }

/-- Observable outcome of the window-open handler: the URLs handed to
`shell.openExternal` and the action string returned to Electron. -/
structure WindowOpenOutcome where
  openedExternal : List String
  action : String
deriving DecidableEq, Repr

/-- Behaviour of the `setWindowOpenHandler` callback of the generated
entry script: every request is opened externally and denied in-app. -/
def window_open_handler (url : String) : WindowOpenOutcome :=
{ openedExternal := [url], action := "deny" }

/-- Paths are lists of path components. -/
abbrev FPath := List String

/-- On-disk state: an association list from paths to file contents.
Directories are represented by the files below them. -/
abbrev FS := List (FPath × String)

/-- Content of the file at `p`, if a file exists there. -/
def fsRead (fs : FS) (p : FPath) : Option String :=
(fs.find? (fun e => e.1 = p)).map (fun e => e.2)

/-- Whether a file exists exactly at `p`. -/
def fsFileExists (fs : FS) (p : FPath) : Bool :=
(fsRead fs p).isSome

/-- Size (`st_size`) of the file at `p`; 0 when absent. -/
def fsSize (fs : FS) (p : FPath) : Nat :=
((fsRead fs p).map String.length).getD 0

/-- Write (create or overwrite) the file at `p`. -/
def fsWrite (fs : FS) (p : FPath) (c : String) : FS :=
(p, c) :: fs.filter (fun e => ¬ e.1 = p)

/-- Whether the path `d` exists as a file or as a directory (a directory
exists when some file lies at or below it); models `Path.exists()`. -/
def pathExists (fs : FS) (d : FPath) : Bool :=
fs.any (fun e => d.isPrefixOf e.1)

/-- Remove the tree rooted at `d`; models `shutil.rmtree`. -/
def fsRmtree (fs : FS) (d : FPath) : FS :=
fs.filter (fun e => ¬ d.isPrefixOf e.1 = true)

/-- Write a batch of files in order; models the files created by an
external subprocess. -/
def fsAddFiles (fs : FS) (new : List (FPath × String)) : FS :=
new.foldl (fun acc e => fsWrite acc e.1 e.2) fs

/-- Path of the scaffolded `package.json`. -/
def pkg_json_path : FPath := [APP_DIR, "package.json"]

/-- Path of the scaffolded `main.js`. -/
def main_js_path : FPath := [APP_DIR, "main.js"]

/-- Path of the scaffolded `preload.js`. -/
def preload_js_path : FPath := [APP_DIR, "preload.js"]

/-- Path of the scaffolded icon copy, `APP_DIR/"icon.ico"`. -/
def icon_path : FPath := [APP_DIR, "icon.ico"]

/-- State after the three unconditional `write_utf8` calls of `scaffold`:
the manifest, the entry script and the preload script. -/
def scaffold_scripts (allow_media : Bool) (fs : FS) : FS :=
fsWrite (fsWrite (fsWrite fs pkg_json_path pkg_json)
  main_js_path (main_js allow_media)) preload_js_path preload_js

/-- Embedding of `scaffold(allow_media, icon_src)`: write the three
generated files, then copy the icon into the scaffold directory when an
icon path was given, it exists and its size is positive (`shutil.copy2`),
and otherwise leave the scaffold directory untouched.  The trailing
`node -e` manifest self-check spawns a subprocess and writes nothing, so
it does not appear in the filesystem model. -/
def scaffold (allow_media : Bool) (icon_src : Option FPath) (fs : FS) : FS :=
let fs3 := scaffold_scripts allow_media fs
match icon_src with
| some p =>
    if fsFileExists fs3 p && fsSize fs3 p > 0 then
      fsWrite fs3 icon_path ((fsRead fs3 p).getD "")
    else fs3
| none => fs3

/-- Path of the packager output parent directory `APP_DIR/"dist"`. -/
def dist_path : FPath := [APP_DIR, "dist"]

/-- Path of the expected packager output directory
`APP_DIR/"dist"/f"{APP_NAME}-win32-x64"`. -/
def out_path : FPath := [APP_DIR, "dist", APP_NAME ++ "-win32-x64"]

/-- Icon flag computed by `build`: present exactly when `APP_DIR/"icon.ico"`
exists and has positive size at packaging time. -/
def icon_arg (fs : FS) : List String :=
if fsFileExists fs icon_path && fsSize fs icon_path > 0 then ["--icon=icon.ico"] else []

/-- Packaging command assembled by `build` (the `cmd` list at line 239),
as a function of the resolved `npx` executable and the on-disk state after
`npm install`. -/
def packager_cmd (npx : String) (fs : FS) : List String :=
[npx, "@electron/packager", ".", APP_NAME, "--platform=win32", "--arch=x64",
  "--out", "dist", "--overwrite", "--asar"] ++ icon_arg fs

/-- Oracle for the external effects `build` depends on: the resolution of
`npm`/`npx` on the search path, the files created by `npm install`, the
packager subprocess exit status and the files it creates, and the
exception raised by `os.startfile`, if any. -/
structure BuildEnv where
  whichNpm : Option String
  whichNpx : Option String
  installFiles : List (FPath × String)
  packagerOk : Bool
  packagerFiles : List (FPath × String)
  openExc : Option String

/-- Result of a successful `build`: the final on-disk state, the packaging
command that was run, and the warnings printed. -/
structure BuildOut where
  fs : FS
  cmd : List String
  warnings : List String

/-- Embedding of `build(open_explorer)`: resolve `npm`/`npx` (absence is
fatal), run `npm install` in the scaffold directory, compute the icon
flag, delete any prior `dist` tree, invoke the packager (a non-zero exit
raised by `run` is fatal), check that the expected output directory
exists (absence is the fatal `"Packaging failed."`), and finally open the
output directory in Explorer, downgrading any exception there to a
warning. -/
def build (env : BuildEnv) (open_explorer : Bool) (fs : FS) : Except String BuildOut :=
match env.whichNpm, env.whichNpx with
| some _, some npx =>
    let fs1 := fsAddFiles fs env.installFiles
    let cmd := packager_cmd npx fs1
    let fs2 := if pathExists fs1 dist_path then fsRmtree fs1 dist_path else fs1
    if env.packagerOk then
      let fs3 := fsAddFiles fs2 env.packagerFiles
      if pathExists fs3 out_path then
        let warnings :=
          if open_explorer then
            match env.openExc with
            | some e => ["Could not open Explorer automatically: " ++ e]
            | none => []
          else []
        Except.ok { fs := fs3, cmd := cmd, warnings := warnings }
      else Except.error "Packaging failed."
    else Except.error "subprocess.CalledProcessError"
| _, _ => Except.error "npm/npx not found."

/-- Filesystem part of one full pipeline run as driven by `main`:
`scaffold` followed by `build(open_explorer=True)`. -/
def pipeline (allow_media : Bool) (icon_src : Option FPath) (env : BuildEnv)
    (fs : FS) : Except String BuildOut :=
build env true (scaffold allow_media icon_src fs)

/-- Python value of the `"lts"` field of one entry of the remote version
index: `d.get("lts")` yields a boolean, a string codename, or `None` when
the key is absent. -/
inductive PyVal where
  | vbool (b : Bool)
  | vstr (s : String)
  | vnull
deriving DecidableEq, Repr

/-- Python truthiness of an `"lts"` field value, as tested by the filter
`[d for d in data if d.get("lts")]`. -/
def truthy : PyVal → Bool
  | PyVal.vbool b => b
  | PyVal.vstr s => !(s == "")
  | PyVal.vnull => false

/-- One entry of the remote version index, with the fields `ensure_node`
reads. -/
structure Release where
  version : String
  lts : PyVal
deriving DecidableEq, Repr

/-- Embedding of `.lstrip("v")`: remove every leading `v`. -/
def lstrip_v (s : String) : String := s.dropWhile (fun c => c == 'v')

/-- Embedding of `parse_ver_tuple`: split on dots and read each component
as a number.  `int(x)` raises on a non-numeric component; the script only
applies this to dotted numeric version strings, and the model maps a
non-numeric component to 0. -/
def parse_ver_tuple (vstr : String) : List Nat :=
(vstr.splitOn ".").map (fun x => (x.toNat?).getD 0)

/-- Python tuple comparison on version tuples: lexicographic, a strict
prefix being smaller. -/
def tupleLe : List Nat → List Nat → Bool
  | [], _ => true
  | _ :: _, [] => false
  | a :: as, b :: bs => if a < b then true else if b < a then false else tupleLe as bs

/-- Sort key used by `lts.sort(key=...)`: the parsed version tuple of the
entry after stripping the leading `v`. -/
def ver_key (d : Release) : List Nat := parse_ver_tuple (lstrip_v d.version)

/-- Key-based comparison the stable sort of the LTS entries is driven by. -/
def release_le (d e : Release) : Bool := tupleLe (ver_key d) (ver_key e)

/-- Embedding of `lts=[d for d in data if d.get("lts")]`. -/
def lts_entries (data : List Release) : List Release :=
data.filter (fun d => truthy d.lts)

/-- Entry picked by `lts.sort(key=...); lts[-1]`: the last element of the
stable ascending sort of the LTS entries; `none` models the `IndexError`
on an empty list. -/
def selected_lts (data : List Release) : Option Release :=
((lts_entries data).mergeSort release_le).getLast?

/-- Side effects `ensure_node` can perform, in order: version queries of
resolved executables, the fetch of the remote version index, a download,
the silent MSI install, the portable ZIP extraction, and a PATH
prepend. -/
inductive Effect where
  | versionQuery (exe : String)
  | fetchIndex (url : String)
  | download (url : String)
  | installMsi
  | extractZip
  | pathPrepend (dir : String)
deriving DecidableEq, Repr

/-- Effects that touch the network, install software or mutate the
process environment; version queries are the only effects outside this
class. -/
def provisioning_effect : Effect → Bool
  | Effect.versionQuery _ => false
  | Effect.fetchIndex _ => true
  | Effect.download _ => true
  | Effect.installMsi => true
  | Effect.extractZip => true
  | Effect.pathPrepend _ => true

/-- Environment oracle for `ensure_node`: results of the `shutil.which`
probes, of the `--version` queries (`none` models `check_output`
raising), the install-consent answer, the decoded remote index, the
privilege level, and the post-bootstrap re-probe results. -/
structure SysEnv where
  whichNode : Option String
  whichNpm : Option String
  nodeVer : Option String
  npmVer : Option String
  consent : Bool
  index : List Release
  isAdmin : Bool
  whichNodeAfter : Option String
  whichNpmAfter : Option String
  nodeVerAfter : Option String
  npmVerAfter : Option String

/-- URL of the remote version index fetched by `ensure_node`. -/
def idx_url : String := "https://nodejs.org/dist/index.json"

/-- Base download URL for a selected version. -/
def dist_base (ver : String) : String := "https://nodejs.org/dist/v" ++ ver

/-- MSI installer URL for a selected version (elevated branch). -/
def msi_url (ver : String) : String :=
dist_base ver ++ "/node-v" ++ ver ++ "-x64.msi"

/-- Portable ZIP URL for a selected version (non-elevated branch). -/
def zip_url (ver : String) : String :=
dist_base ver ++ "/node-v" ++ ver ++ "-win-x64.zip"

/-- Install path of `ensure_node`, reached when the toolchain probe
failed: ask consent (refusal is the fatal `sys.exit`), fetch the remote
index, keep the truthy-LTS entries, sort them by parsed version and take
the last; then branch on privilege (MSI install vs portable ZIP), prepend
the install directory to PATH, re-probe, and re-query the versions.
`tr` is the trace of effects performed before this point. -/
def node_install (env : SysEnv) (tr : List Effect) : List Effect × Except String Unit :=
if !env.consent then (tr, Except.error "Node.js is required. Abortion.")
else
  let tr1 := tr ++ [Effect.fetchIndex idx_url]
  match selected_lts env.index with
  | none => (tr1, Except.error "IndexError: list index out of range")
  | some d =>
    let ver := lstrip_v d.version
    let tr2 :=
      if env.isAdmin then
        tr1 ++ [Effect.download (msi_url ver), Effect.installMsi,
          Effect.pathPrepend "C:\\Program Files\\nodejs"]
      else
        tr1 ++ [Effect.download (zip_url ver), Effect.extractZip,
          Effect.pathPrepend "node-portable"]
    match env.whichNodeAfter, env.whichNpmAfter with
    | some node2, some npm2 =>
        (match env.nodeVerAfter with
         | none => (tr2 ++ [Effect.versionQuery node2],
             Except.error "subprocess.CalledProcessError")
         | some _ =>
           match env.npmVerAfter with
           | none => (tr2 ++ [Effect.versionQuery node2, Effect.versionQuery npm2],
               Except.error "subprocess.CalledProcessError")
           | some _ => (tr2 ++ [Effect.versionQuery node2, Effect.versionQuery npm2],
               Except.ok ()))
    | _, _ => (tr2, Except.error "Node/npm not available after bootstrap.")

/-- Embedding of `ensure_node`: probe the search path for both
executables; when both resolve, query their versions and return with no
further effect on success.  A failed probe or a raised version query
falls through to the install path (the `try`/`except: pass`). -/
def ensure_node (env : SysEnv) : List Effect × Except String Unit :=
match env.whichNode, env.whichNpm with
| some node, some npm =>
    (match env.nodeVer with
     | some _ =>
       match env.npmVer with
       | some _ => ([Effect.versionQuery node, Effect.versionQuery npm], Except.ok ())
       | none => node_install env [Effect.versionQuery node, Effect.versionQuery npm]
     | none => node_install env [Effect.versionQuery node])
| _, _ => node_install env []

/-- Icon condition tested by `scaffold` (line 221): an icon path was
given, it exists on disk at check time (after the three script writes)
and its size is positive. -/
def icon_valid (allow_media : Bool) (icon_src : Option FPath) (fs : FS) : Bool :=
match icon_src with
| some p => fsFileExists (scaffold_scripts allow_media fs) p &&
    fsSize (scaffold_scripts allow_media fs) p > 0
| none => false

/-- Files a successful packager run drops under the expected output
directory, used by concrete scenarios. -/
def ok_packager_files : List (FPath × String) :=
[(out_path ++ [APP_NAME ++ ".exe"], "MZ")]

/-- Build oracle of a fully successful run: toolchain resolved, packager
succeeds and populates the output directory, Explorer opens fine. -/
def ok_build_env : BuildEnv :=
{ whichNpm := some "npm.cmd", whichNpx := some "npx.cmd", installFiles := [],
  packagerOk := true, packagerFiles := ok_packager_files, openExc := none }

/-- Working directory holding one leftover icon copy inside the scaffold
directory, as a prior run with an icon leaves it. -/
def stale_icon_state : FS := [(icon_path, "X")]

/-- Working directory holding one user icon file next to the script. -/
def cwd_icon_state : FS := [(["wa.ico"], "A")]

/-- Toolchain environment in which both executables resolve and both
version queries succeed. -/
def sys_ok_env : SysEnv :=
{ whichNode := some "node.exe", whichNpm := some "npm.cmd",
  nodeVer := some "v20.11.1", npmVer := some "10.2.4", consent := true,
  index := [], isAdmin := false, whichNodeAfter := none, whichNpmAfter := none,
  nodeVerAfter := none, npmVerAfter := none }

/-- Toolchain environment in which the probe fails, the user consents,
and the remote index holds one non-LTS and one LTS entry. -/
def sys_bootstrap_env : SysEnv :=
{ whichNode := none, whichNpm := none, nodeVer := none, npmVer := none,
  consent := true,
  index := [{ version := "v22.1.0", lts := PyVal.vbool false },
            { version := "v20.11.1", lts := PyVal.vstr "Iron" }],
  isAdmin := true, whichNodeAfter := some "node.exe",
  whichNpmAfter := some "npm.cmd", nodeVerAfter := some "v20.11.1",
  npmVerAfter := some "10.2.4" }

theorem find?_filter_of_ne (fs : FS) (p q : FPath) (h : ¬ q = p) :
    (fs.filter (fun e => ¬ e.1 = p)).find? (fun e => e.1 = q) =
      fs.find? (fun e => e.1 = q) := by
  induction fs with
  | nil => rfl
  | cons e l ih =>
    by_cases hep : e.1 = p
    · have heq : ¬ (e.1 = q) := fun hq => h (hq ▸ hep)
      rw [List.filter_cons_of_neg (by simp [hep]),
        List.find?_cons_of_neg _ (by simp [heq]), ih]
    · rw [List.filter_cons_of_pos (by simp [hep])]
      by_cases heq : e.1 = q
      · rw [List.find?_cons_of_pos _ (by simp [heq]),
          List.find?_cons_of_pos _ (by simp [heq])]
      · rw [List.find?_cons_of_neg _ (by simp [heq]),
          List.find?_cons_of_neg _ (by simp [heq]), ih]

theorem fsRead_fsWrite (fs : FS) (p : FPath) (c : String) (q : FPath) :
    fsRead (fsWrite fs p c) q = if q = p then some c else fsRead fs q := by
  by_cases hqp : q = p
  · subst hqp
    rw [if_pos rfl]
    unfold fsRead fsWrite
    rw [List.find?_cons_of_pos _ (by simp)]
    rfl
  · rw [if_neg hqp]
    unfold fsRead fsWrite
    rw [List.find?_cons_of_neg _ (by simp only [decide_eq_true_eq]; exact fun h => hqp h.symm),
      find?_filter_of_ne _ _ _ hqp]

theorem fsRead_scaffold_scripts_main (a : Bool) (fs : FS) :
    fsRead (scaffold_scripts a fs) main_js_path = some (main_js a) := by
  unfold scaffold_scripts
  rw [fsRead_fsWrite, if_neg (by decide), fsRead_fsWrite, if_pos rfl]

theorem fsRead_scaffold_scripts_preload (a : Bool) (fs : FS) :
    fsRead (scaffold_scripts a fs) preload_js_path = some preload_js := by
  unfold scaffold_scripts
  rw [fsRead_fsWrite, if_pos rfl]

theorem fsRead_scaffold_scripts_pkg (a : Bool) (fs : FS) :
    fsRead (scaffold_scripts a fs) pkg_json_path = some pkg_json := by
  unfold scaffold_scripts
  rw [fsRead_fsWrite, if_neg (by decide), fsRead_fsWrite, if_neg (by decide),
    fsRead_fsWrite, if_pos rfl]

theorem fsRead_scaffold_scripts_other (a : Bool) (fs : FS) (q : FPath)
    (h1 : ¬ q = pkg_json_path) (h2 : ¬ q = main_js_path) (h3 : ¬ q = preload_js_path) :
    fsRead (scaffold_scripts a fs) q = fsRead fs q := by
  unfold scaffold_scripts
  rw [fsRead_fsWrite, if_neg h3, fsRead_fsWrite, if_neg h2, fsRead_fsWrite, if_neg h1]

theorem fsRead_scaffold_main (a : Bool) (i : Option FPath) (fs : FS) :
    fsRead (scaffold a i fs) main_js_path = some (main_js a) := by
  unfold scaffold
  cases i with
  | none => exact fsRead_scaffold_scripts_main a fs
  | some p =>
    dsimp only
    split
    · rw [fsRead_fsWrite, if_neg (by decide)]
      exact fsRead_scaffold_scripts_main a fs
    · exact fsRead_scaffold_scripts_main a fs

theorem fsRead_scaffold_preload (a : Bool) (i : Option FPath) (fs : FS) :
    fsRead (scaffold a i fs) preload_js_path = some preload_js := by
  unfold scaffold
  cases i with
  | none => exact fsRead_scaffold_scripts_preload a fs
  | some p =>
    dsimp only
    split
    · rw [fsRead_fsWrite, if_neg (by decide)]
      exact fsRead_scaffold_scripts_preload a fs
    · exact fsRead_scaffold_scripts_preload a fs

theorem fsRead_scaffold_pkg (a : Bool) (i : Option FPath) (fs : FS) :
    fsRead (scaffold a i fs) pkg_json_path = some pkg_json := by
  unfold scaffold
  cases i with
  | none => exact fsRead_scaffold_scripts_pkg a fs
  | some p =>
    dsimp only
    split
    · rw [fsRead_fsWrite, if_neg (by decide)]
      exact fsRead_scaffold_scripts_pkg a fs
    · exact fsRead_scaffold_scripts_pkg a fs

/-- C1: for every build configuration, the permission-request handler
installed by the generated entry script grants a request exactly when it
is a `media` request and the media flag is set, or it is a
`notifications` request, or it is a `display-capture` request; every
other permission kind is denied. -/
theorem permission_handler_grants_iff (allowMedia : Bool) (permission : String) :
    permission_request_handler allowMedia permission = true ↔
      ((permission = "media" ∧ allowMedia = true) ∨
        permission = "notifications" ∨ permission = "display-capture") := by
  constructor
  · intro h
    unfold permission_request_handler at h
    by_cases h1 : permission = "media"
    · exact Or.inl ⟨h1, by simpa [h1] using h⟩
    · by_cases h2 : permission = "notifications"
      · exact Or.inr (Or.inl h2)
      · by_cases h3 : permission = "display-capture"
        · exact Or.inr (Or.inr h3)
        · simp [h1, h2, h3] at h
  · intro h
    unfold permission_request_handler
    rcases h with ⟨h1, ha⟩ | h2 | h3
    · simp [h1, ha]
    · subst h2; simp
    · subst h3; simp

/-- C2: the `will-navigate` handler of the generated entry script
prevents in-window navigation exactly for URLs that are not under the
fixed origin, and routes exactly those URLs to the external
`shell.openExternal` path; URLs under the origin proceed unimpeded. -/
theorem will_navigate_policy (url : String) :
    (will_navigate_handler url).prevented = !(url.startsWith whatsapp_origin) ∧
      (will_navigate_handler url).openedExternal =
        (if url.startsWith whatsapp_origin then [] else [url]) := by
  unfold will_navigate_handler
  cases h : url.startsWith whatsapp_origin <;> simp [h]

/-- C10: the window-open handler of the generated entry script denies
every new in-app window, including ones for URLs under the fixed origin,
and hands the URL to the external OS browser instead. -/
theorem window_open_always_denies (url : String) :
    (window_open_handler url).action = "deny" ∧
      (window_open_handler url).openedExternal = [url] :=
  ⟨rfl, rfl⟩

/-- C8: the entry-script and preload-script contents written by
`scaffold` are fully determined by the media flag: for any icon arguments
and any two starting states, both files are written with identical,
byte-for-byte fixed contents. -/
theorem scaffold_scripts_determined_by_flag (a : Bool) (i1 i2 : Option FPath)
    (fs1 fs2 : FS) :
    fsRead (scaffold a i1 fs1) main_js_path = some (main_js a) ∧
      fsRead (scaffold a i1 fs1) preload_js_path = some preload_js ∧
      fsRead (scaffold a i1 fs1) main_js_path = fsRead (scaffold a i2 fs2) main_js_path ∧
      fsRead (scaffold a i1 fs1) preload_js_path = fsRead (scaffold a i2 fs2) preload_js_path := by
  refine ⟨fsRead_scaffold_main a i1 fs1, fsRead_scaffold_preload a i1 fs1, ?_, ?_⟩
  · rw [fsRead_scaffold_main a i1 fs1, fsRead_scaffold_main a i2 fs2]
  · rw [fsRead_scaffold_preload a i1 fs1, fsRead_scaffold_preload a i2 fs2]

theorem fsAddFiles_cons (fs : FS) (x : FPath × String) (rest : List (FPath × String)) :
    fsAddFiles fs (x :: rest) = fsAddFiles (fsWrite fs x.1 x.2) rest := rfl

theorem fsRead_fsAddFiles_of_not_mem (new : List (FPath × String)) (fs : FS) (p : FPath)
    (h : ∀ e ∈ new, ¬ e.1 = p) : fsRead (fsAddFiles fs new) p = fsRead fs p := by
  induction new generalizing fs with
  | nil => rfl
  | cons x rest ih =>
    rw [fsAddFiles_cons, ih _ (fun e he => h e (List.mem_cons_of_mem _ he)),
      fsRead_fsWrite, if_neg (fun hp => h x (List.mem_cons_self _ _) hp.symm)]

theorem mem_fsWrite (fs : FS) (p : FPath) (c : String) (e : FPath × String)
    (h : e ∈ fsWrite fs p c) : e = (p, c) ∨ e ∈ fs := by
  unfold fsWrite at h
  rcases List.mem_cons.mp h with h | h
  · exact Or.inl h
  · exact Or.inr (List.mem_filter.mp h).1

theorem mem_fsAddFiles (new : List (FPath × String)) (fs : FS) (e : FPath × String)
    (h : e ∈ fsAddFiles fs new) : e ∈ new ∨ e ∈ fs := by
  induction new generalizing fs with
  | nil => exact Or.inr h
  | cons x rest ih =>
    rw [fsAddFiles_cons] at h
    rcases ih _ h with h | h
    · exact Or.inl (List.mem_cons_of_mem _ h)
    · rcases mem_fsWrite _ _ _ _ h with h | h
      · exact Or.inl (by rw [h]; exact List.mem_cons_self _ _)
      · exact Or.inr h

theorem fsFileExists_fsAddFiles_of_mem (new : List (FPath × String)) (fs : FS) (p : FPath)
    (h : p ∈ new.map Prod.fst) : fsFileExists (fsAddFiles fs new) p = true := by
  induction new generalizing fs with
  | nil => simp at h
  | cons x rest ih =>
    rw [fsAddFiles_cons]
    by_cases hr : p ∈ rest.map Prod.fst
    · exact ih _ hr
    · have hx : p = x.1 := by
        rcases List.mem_map.mp h with ⟨e, he, hep⟩
        rcases List.mem_cons.mp he with he | he
        · rw [← hep, he]
        · exact absurd (List.mem_map.mpr ⟨e, he, hep⟩) hr
      unfold fsFileExists
      rw [fsRead_fsAddFiles_of_not_mem _ _ _
          (fun e he hep => hr (List.mem_map.mpr ⟨e, he, hep⟩)),
        fsRead_fsWrite, if_pos hx]
      rfl

theorem pathExists_iff (fs : FS) (d : FPath) :
    pathExists fs d = true ↔ ∃ e ∈ fs, d.isPrefixOf e.1 = true := by
  simp [pathExists, List.any_eq_true]

theorem fsFileExists_iff (fs : FS) (p : FPath) :
    fsFileExists fs p = true ↔ ∃ e ∈ fs, e.1 = p := by
  simp [fsFileExists, fsRead, List.find?_isSome]

theorem pathExists_of_file (fs : FS) (p d : FPath) (hf : fsFileExists fs p = true)
    (hd : d.isPrefixOf p = true) : pathExists fs d = true := by
  rcases (fsFileExists_iff fs p).mp hf with ⟨e, he, hep⟩
  exact (pathExists_iff fs d).mpr ⟨e, he, by rw [hep]; exact hd⟩

theorem mem_fsRmtree (fs : FS) (d : FPath) (e : FPath × String)
    (h : e ∈ fsRmtree fs d) : e ∈ fs ∧ ¬ d.isPrefixOf e.1 = true := by
  unfold fsRmtree at h
  have hm := List.mem_filter.mp h
  exact ⟨hm.1, by simpa using hm.2⟩

theorem dist_prefix_of_under_out (p : FPath) (h : out_path.isPrefixOf p = true) :
    dist_path.isPrefixOf p = true := by
  rw [List.isPrefixOf_iff_prefix] at h ⊢
  exact List.IsPrefix.trans ⟨[APP_NAME ++ "-win32-x64"], rfl⟩ h

theorem no_dist_after_clear (fs1 : FS) (e : FPath × String)
    (he : e ∈ (if pathExists fs1 dist_path then fsRmtree fs1 dist_path else fs1)) :
    ¬ dist_path.isPrefixOf e.1 = true := by
  by_cases hd : pathExists fs1 dist_path = true
  · rw [if_pos hd] at he
    exact (mem_fsRmtree _ _ _ he).2
  · rw [if_neg hd] at he
    intro hpre
    exact hd ((pathExists_iff fs1 dist_path).mpr ⟨e, he, hpre⟩)

/-- C4: when `npm`/`npx` resolve and the packaging tool exits
successfully but creates nothing under the expected output directory
`APP_DIR/dist/<APP_NAME>-win32-x64`, `build` terminates fatally with the
distinct `"Packaging failed."` message instead of reporting success. -/
theorem build_fatal_when_out_dir_missing (env : BuildEnv) (fs : FS)
    (open_explorer : Bool) (npm npx : String)
    (hnpm : env.whichNpm = some npm) (hnpx : env.whichNpx = some npx)
    (hok : env.packagerOk = true)
    (hpk : ∀ e ∈ env.packagerFiles, ¬ out_path.isPrefixOf e.1 = true) :
    build env open_explorer fs = Except.error "Packaging failed." := by
  unfold build
  rw [hnpm, hnpx]
  dsimp only
  rw [hok]
  have hfalse :
      pathExists
        (fsAddFiles
          (if pathExists (fsAddFiles fs env.installFiles) dist_path then
            fsRmtree (fsAddFiles fs env.installFiles) dist_path
          else fsAddFiles fs env.installFiles) env.packagerFiles) out_path = false := by
    rw [Bool.eq_false_iff]
    intro hx
    rcases (pathExists_iff _ _).mp hx with ⟨e, he, hpre⟩
    rcases mem_fsAddFiles _ _ _ he with hm | hm
    · exact hpk e hm hpre
    · exact no_dist_after_clear _ _ hm (dist_prefix_of_under_out _ hpre)
  simp [hfalse]

/-- Closed witness for the previous theorem: a concrete environment in
which the packager reports success but writes nothing at all. -/
theorem build_fatal_when_out_dir_missing_witness :
    build { whichNpm := some "npm.cmd", whichNpx := some "npx.cmd", installFiles := [],
            packagerOk := true, packagerFiles := [], openExc := none } true [] =
      Except.error "Packaging failed." :=
  build_fatal_when_out_dir_missing _ _ _ "npm.cmd" "npx.cmd" rfl rfl rfl
    (by intro e he; simp at he)

/-- C9: when the build reaches the final Explorer-opening step and
`os.startfile` raises, the exception is caught and reported as a warning
only; `build` still returns success. -/
theorem explorer_failure_is_nonfatal (env : BuildEnv) (fs : FS) (npm npx m : String)
    (hnpm : env.whichNpm = some npm) (hnpx : env.whichNpx = some npx)
    (hok : env.packagerOk = true) (hexc : env.openExc = some m)
    (hout : ∃ e ∈ env.packagerFiles, out_path.isPrefixOf e.1 = true) :
    ∃ o : BuildOut, build env true fs = Except.ok o ∧
      o.warnings = ["Could not open Explorer automatically: " ++ m] := by
  unfold build
  rw [hnpm, hnpx]
  dsimp only
  rw [hok]
  rcases hout with ⟨e, he, hpre⟩
  have htrue :
      pathExists
        (fsAddFiles
          (if pathExists (fsAddFiles fs env.installFiles) dist_path then
            fsRmtree (fsAddFiles fs env.installFiles) dist_path
          else fsAddFiles fs env.installFiles) env.packagerFiles) out_path = true := by
    refine pathExists_of_file _ e.1 _ ?_ hpre
    exact fsFileExists_fsAddFiles_of_mem _ _ _ (List.mem_map.mpr ⟨e, he, rfl⟩)
  simp [htrue, hexc]

/-- Closed witness for the previous theorem: a concrete successful run
in which opening Explorer raises. -/
theorem explorer_failure_is_nonfatal_witness :
    ∃ o : BuildOut,
      build { whichNpm := some "npm.cmd", whichNpx := some "npx.cmd", installFiles := [],
              packagerOk := true, packagerFiles := ok_packager_files,
              openExc := some "boom" } true [] = Except.ok o ∧
      o.warnings = ["Could not open Explorer automatically: " ++ "boom"] :=
  explorer_failure_is_nonfatal _ [] "npm.cmd" "npx.cmd" "boom" rfl rfl rfl rfl
    ⟨(out_path ++ [APP_NAME ++ ".exe"], "MZ"), by decide⟩

theorem scaffold_eq_of_invalid (a : Bool) (i : Option FPath) (fs : FS)
    (h : icon_valid a i fs = false) : scaffold a i fs = scaffold_scripts a fs := by
  unfold scaffold
  cases i with
  | none => rfl
  | some p =>
    unfold icon_valid at h
    dsimp only at h ⊢
    rw [if_neg]
    rw [h]
    simp

theorem scaffold_eq_of_valid (a : Bool) (p : FPath) (fs : FS)
    (h : icon_valid a (some p) fs = true) :
    scaffold a (some p) fs =
      fsWrite (scaffold_scripts a fs) icon_path
        ((fsRead (scaffold_scripts a fs) p).getD "") := by
  unfold scaffold
  unfold icon_valid at h
  dsimp only at h ⊢
  rw [if_pos]
  rw [h]

/-- C3 counterexample: with a stale `icon.ico` left inside the scaffold
directory by an earlier invocation, a run given NO icon argument has
`scaffold` write no icon (the stale copy survives untouched), yet the
packaging command assembled by `build` still carries the icon flag —
contradicting the claim that, with no icon argument, the packaging
command contains no icon flag. -/
theorem stale_icon_defeats_icon_omission :
    fsRead (scaffold false none stale_icon_state) icon_path = some "X" ∧
    Except.map (fun o => o.cmd) (pipeline false none ok_build_env stale_icon_state) =
      Except.ok ["npx.cmd", "@electron/packager", ".", APP_NAME, "--platform=win32",
        "--arch=x64", "--out", "dist", "--overwrite", "--asar", "--icon=icon.ico"] :=
  ⟨rfl, rfl⟩

/-- C3 amended: starting from a state whose scaffold directory holds no
icon file (and with `npm install` not touching the icon path), `scaffold`
writes no icon and the packaging command carries no icon flag exactly
when the icon argument is missing, nonexistent or empty; with a valid
non-empty icon the copy is written and the flag is present. -/
theorem icon_flag_matches_icon_validity (a : Bool) (i : Option FPath) (fs : FS)
    (installFiles : List (FPath × String))
    (hclean : fsRead fs icon_path = none)
    (hinst : ∀ e ∈ installFiles, ¬ e.1 = icon_path) :
    (icon_valid a i fs = false →
      fsRead (scaffold a i fs) icon_path = none ∧
      icon_arg (fsAddFiles (scaffold a i fs) installFiles) = []) ∧
    (∀ p, i = some p → icon_valid a i fs = true →
      fsRead (scaffold a i fs) icon_path = fsRead (scaffold_scripts a fs) p ∧
      icon_arg (fsAddFiles (scaffold a i fs) installFiles) = ["--icon=icon.ico"]) := by
  constructor
  · intro hiv
    have hread : fsRead (scaffold a i fs) icon_path = none := by
      rw [scaffold_eq_of_invalid a i fs hiv,
        fsRead_scaffold_scripts_other a fs icon_path (by decide) (by decide) (by decide)]
      exact hclean
    refine ⟨hread, ?_⟩
    unfold icon_arg
    rw [if_neg]
    intro hcontra
    have hex := (Bool.and_eq_true _ _).mp hcontra |>.1
    unfold fsFileExists at hex
    rw [fsRead_fsAddFiles_of_not_mem _ _ _ hinst, hread] at hex
    simp at hex
  · intro p hp hiv
    subst hp
    have hE : fsFileExists (scaffold_scripts a fs) p = true := by
      unfold icon_valid at hiv
      exact ((Bool.and_eq_true _ _).mp hiv).1
    have hS : 0 < fsSize (scaffold_scripts a fs) p := by
      unfold icon_valid at hiv
      have := ((Bool.and_eq_true _ _).mp hiv).2
      exact of_decide_eq_true this
    rcases Option.isSome_iff_exists.mp hE with ⟨v, hv⟩
    have hveq : fsRead (scaffold_scripts a fs) p = some v := hv
    have hlen : 0 < v.length := by
      unfold fsSize at hS
      rw [hveq] at hS
      simpa using hS
    have hread : fsRead (scaffold a (some p) fs) icon_path = some v := by
      rw [scaffold_eq_of_valid a p fs hiv, fsRead_fsWrite, if_pos rfl, hveq]
      rfl
    refine ⟨by rw [hread, hveq], ?_⟩
    unfold icon_arg
    rw [if_pos]
    have hafter : fsRead (fsAddFiles (scaffold a (some p) fs) installFiles) icon_path = some v := by
      rw [fsRead_fsAddFiles_of_not_mem _ _ _ hinst, hread]
    rw [Bool.and_eq_true]
    constructor
    · unfold fsFileExists
      rw [hafter]
      rfl
    · unfold fsSize
      rw [hafter]
      simpa using hlen

/-- Closed witness for the amended C3 theorem: a clean working directory
holding one valid non-empty icon file; the icon copy is written and the
icon flag is present. -/
theorem icon_flag_matches_icon_validity_witness :
    fsRead cwd_icon_state icon_path = none ∧
    fsRead (scaffold true (some ["wa.ico"]) cwd_icon_state) icon_path =
      fsRead (scaffold_scripts true cwd_icon_state) ["wa.ico"] ∧
    icon_arg (fsAddFiles (scaffold true (some ["wa.ico"]) cwd_icon_state) []) =
      ["--icon=icon.ico"] :=
  have happ := (icon_flag_matches_icon_validity true (some ["wa.ico"]) cwd_icon_state []
    (by decide) (by simp)).2 ["wa.ico"] rfl (by decide)
  ⟨by decide, happ.1, happ.2⟩

theorem find?_fsRmtree_of_not_under (fs : FS) (d p : FPath)
    (h : ¬ d.isPrefixOf p = true) :
    (fsRmtree fs d).find? (fun e => e.1 = p) = fs.find? (fun e => e.1 = p) := by
  unfold fsRmtree
  induction fs with
  | nil => rfl
  | cons e l ih =>
    by_cases hd : d.isPrefixOf e.1 = true
    · have hne : ¬ e.1 = p := fun hep => h (hep ▸ hd)
      rw [List.filter_cons_of_neg (by simp [hd]),
        List.find?_cons_of_neg _ (by simp [hne]), ih]
    · rw [List.filter_cons_of_pos (by simp [hd])]
      by_cases hep : e.1 = p
      · rw [List.find?_cons_of_pos _ (by simp [hep]),
          List.find?_cons_of_pos _ (by simp [hep])]
      · rw [List.find?_cons_of_neg _ (by simp [hep]),
          List.find?_cons_of_neg _ (by simp [hep]), ih]

theorem fsRead_fsRmtree_of_not_under (fs : FS) (d p : FPath)
    (h : ¬ d.isPrefixOf p = true) :
    fsRead (fsRmtree fs d) p = fsRead fs p := by
  unfold fsRead
  rw [find?_fsRmtree_of_not_under fs d p h]

theorem fsRead_clear_dist (fs1 : FS) (p : FPath)
    (h : ¬ dist_path.isPrefixOf p = true) :
    fsRead (if pathExists fs1 dist_path then fsRmtree fs1 dist_path else fs1) p =
      fsRead fs1 p := by
  by_cases hd : pathExists fs1 dist_path = true
  · rw [if_pos hd, fsRead_fsRmtree_of_not_under _ _ _ h]
  · rw [if_neg hd]

theorem build_ok_characterization (env : BuildEnv) (oe : Bool) (fs : FS)
    (npm npx : String)
    (hnpm : env.whichNpm = some npm) (hnpx : env.whichNpx = some npx)
    (hok : env.packagerOk = true)
    (hout : ∃ e ∈ env.packagerFiles, out_path.isPrefixOf e.1 = true) :
    build env oe fs = Except.ok
      { fs := fsAddFiles
          (if pathExists (fsAddFiles fs env.installFiles) dist_path then
            fsRmtree (fsAddFiles fs env.installFiles) dist_path
          else fsAddFiles fs env.installFiles) env.packagerFiles,
        cmd := packager_cmd npx (fsAddFiles fs env.installFiles),
        warnings :=
          if oe then
            match env.openExc with
            | some e => ["Could not open Explorer automatically: " ++ e]
            | none => []
          else [] } := by
  unfold build
  rw [hnpm, hnpx]
  dsimp only
  rw [hok]
  rcases hout with ⟨e, he, hpre⟩
  have htrue :
      pathExists
        (fsAddFiles
          (if pathExists (fsAddFiles fs env.installFiles) dist_path then
            fsRmtree (fsAddFiles fs env.installFiles) dist_path
          else fsAddFiles fs env.installFiles) env.packagerFiles) out_path = true := by
    refine pathExists_of_file _ e.1 _ ?_ hpre
    exact fsFileExists_fsAddFiles_of_mem _ _ _ (List.mem_map.mpr ⟨e, he, rfl⟩)
  simp [htrue]

/-- C5 counterexample: run the pipeline twice in the same working
directory, first with a valid icon, then with no icon.  After the second
run the scaffold directory still holds the first run's `icon.ico`, while
the very same second-run configuration started from a clean directory
leaves no icon — so the state after the rerun does not reflect only the
second run's configuration. -/
theorem rerun_keeps_first_run_icon :
    Except.bind (pipeline true (some ["wa.ico"]) ok_build_env cwd_icon_state)
      (fun o1 => Except.map (fun o2 => fsRead o2.fs icon_path)
        (pipeline false none ok_build_env o1.fs)) = Except.ok (some "A") ∧
    Except.map (fun o2 => fsRead o2.fs icon_path)
      (pipeline false none ok_build_env []) = Except.ok none :=
  ⟨rfl, rfl⟩

/-- C5 amended: re-running the pipeline against any prior working state
leaves the output directory populated exclusively by the second run's
packager and the three generated files holding exactly the second run's
configuration content; a stale icon file from the first run, however, can
survive in the scaffold directory (see the counterexample). -/
theorem rerun_output_and_scripts_reflect_second_run (a2 : Bool) (i2 : Option FPath)
    (env2 : BuildEnv) (fsPrev : FS) (npm npx : String)
    (hnpm : env2.whichNpm = some npm) (hnpx : env2.whichNpx = some npx)
    (hok : env2.packagerOk = true)
    (hout : ∃ e ∈ env2.packagerFiles, out_path.isPrefixOf e.1 = true)
    (hinst : ∀ e ∈ env2.installFiles,
      ¬ e.1 = main_js_path ∧ ¬ e.1 = preload_js_path ∧ ¬ e.1 = pkg_json_path)
    (hpack : ∀ e ∈ env2.packagerFiles,
      ¬ e.1 = main_js_path ∧ ¬ e.1 = preload_js_path ∧ ¬ e.1 = pkg_json_path) :
    ∃ o2 : BuildOut, pipeline a2 i2 env2 fsPrev = Except.ok o2 ∧
      (∀ e ∈ o2.fs, dist_path.isPrefixOf e.1 = true → e ∈ env2.packagerFiles) ∧
      fsRead o2.fs main_js_path = some (main_js a2) ∧
      fsRead o2.fs preload_js_path = some preload_js ∧
      fsRead o2.fs pkg_json_path = some pkg_json := by
  unfold pipeline
  rw [build_ok_characterization env2 true (scaffold a2 i2 fsPrev) npm npx hnpm hnpx hok hout]
  refine ⟨_, rfl, ?_, ?_, ?_, ?_⟩
  · intro e he hpre
    rcases mem_fsAddFiles _ _ _ he with hm | hm
    · exact hm
    · exact absurd hpre (no_dist_after_clear _ _ hm)
  · dsimp only
    rw [fsRead_fsAddFiles_of_not_mem _ _ _ (fun e he => (hpack e he).1),
      fsRead_clear_dist _ _ (by decide),
      fsRead_fsAddFiles_of_not_mem _ _ _ (fun e he => (hinst e he).1)]
    exact fsRead_scaffold_main a2 i2 fsPrev
  · dsimp only
    rw [fsRead_fsAddFiles_of_not_mem _ _ _ (fun e he => (hpack e he).2.1),
      fsRead_clear_dist _ _ (by decide),
      fsRead_fsAddFiles_of_not_mem _ _ _ (fun e he => (hinst e he).2.1)]
    exact fsRead_scaffold_preload a2 i2 fsPrev
  · dsimp only
    rw [fsRead_fsAddFiles_of_not_mem _ _ _ (fun e he => (hpack e he).2.2),
      fsRead_clear_dist _ _ (by decide),
      fsRead_fsAddFiles_of_not_mem _ _ _ (fun e he => (hinst e he).2.2)]
    exact fsRead_scaffold_pkg a2 i2 fsPrev

/-- Closed witness for the amended C5 theorem: a rerun with no icon over
a directory holding a user icon file. -/
theorem rerun_output_and_scripts_reflect_second_run_witness :
    ∃ o2 : BuildOut, pipeline false none ok_build_env cwd_icon_state = Except.ok o2 ∧
      (∀ e ∈ o2.fs, dist_path.isPrefixOf e.1 = true → e ∈ ok_build_env.packagerFiles) ∧
      fsRead o2.fs main_js_path = some (main_js false) ∧
      fsRead o2.fs preload_js_path = some preload_js ∧
      fsRead o2.fs pkg_json_path = some pkg_json :=
  rerun_output_and_scripts_reflect_second_run false none ok_build_env cwd_icon_state
    "npm.cmd" "npx.cmd" rfl rfl rfl
    ⟨(out_path ++ [APP_NAME ++ ".exe"], "MZ"), by decide⟩
    (by intro e he; simp [ok_build_env] at he)
    (by intro e he; simp [ok_build_env, ok_packager_files] at he; rw [he]; exact ⟨by decide, by decide, by decide⟩)

/-- C6: when both toolchain executables resolve on the search path and
both version queries succeed, `ensure_node` returns successfully having
performed only the two version queries — no fetch, no download, no
install, no PATH mutation. -/
theorem toolchain_present_no_provisioning (env : SysEnv) (node npm nv pv : String)
    (h1 : env.whichNode = some node) (h2 : env.whichNpm = some npm)
    (h3 : env.nodeVer = some nv) (h4 : env.npmVer = some pv) :
    (ensure_node env).2 = Except.ok () ∧
    (ensure_node env).1 = [Effect.versionQuery node, Effect.versionQuery npm] ∧
    ∀ e ∈ (ensure_node env).1, provisioning_effect e = false := by
  have hrun : ensure_node env =
      ([Effect.versionQuery node, Effect.versionQuery npm], Except.ok ()) := by
    unfold ensure_node
    rw [h1, h2]
    dsimp only
    rw [h3]
    dsimp only
    rw [h4]
  refine ⟨by rw [hrun], by rw [hrun], ?_⟩
  intro e he
  rw [hrun] at he
  rcases List.mem_cons.mp he with rfl | he2
  · rfl
  · rcases List.mem_cons.mp he2 with rfl | he3
    · rfl
    · simp at he3

/-- Closed witness for C6: a concrete environment with a healthy
toolchain. -/
theorem toolchain_present_no_provisioning_witness :
    (ensure_node sys_ok_env).2 = Except.ok () ∧
    (ensure_node sys_ok_env).1 =
      [Effect.versionQuery "node.exe", Effect.versionQuery "npm.cmd"] ∧
    ∀ e ∈ (ensure_node sys_ok_env).1, provisioning_effect e = false :=
  toolchain_present_no_provisioning sys_ok_env "node.exe" "npm.cmd" "v20.11.1" "10.2.4"
    rfl rfl rfl rfl

theorem tupleLe_cons_iff (a b : Nat) (as bs : List Nat) :
    tupleLe (a :: as) (b :: bs) = true ↔ (a < b ∨ (a = b ∧ tupleLe as bs = true)) := by
  show (if a < b then true else if b < a then false else tupleLe as bs) = true ↔ _
  by_cases hab : a < b
  · rw [if_pos hab]
    simp [hab]
  · rw [if_neg hab]
    by_cases hba : b < a
    · have hne : ¬ a = b := fun h => absurd hba (h ▸ Nat.lt_irrefl a)
      rw [if_pos hba]
      simp [hab, hne]
    · have heq : a = b := Nat.le_antisymm (Nat.not_lt.mp hba) (Nat.not_lt.mp hab)
      rw [if_neg hba]
      simp [hab, heq]

theorem tupleLe_refl (l : List Nat) : tupleLe l l = true := by
  induction l with
  | nil => rfl
  | cons a as ih => rw [tupleLe_cons_iff]; exact Or.inr ⟨rfl, ih⟩

theorem tupleLe_total (l m : List Nat) : (tupleLe l m || tupleLe m l) = true := by
  induction l generalizing m with
  | nil => simp [tupleLe]
  | cons a as ih =>
    cases m with
    | nil => simp [tupleLe]
    | cons b bs =>
      rcases Nat.lt_trichotomy a b with hab | heq | hba
      · simp [tupleLe_cons_iff, hab]
      · have := ih bs
        rcases Bool.or_eq_true_iff.mp this with h | h
        · simp [tupleLe_cons_iff, heq, h]
        · refine Bool.or_eq_true_iff.mpr (Or.inr ?_)
          rw [tupleLe_cons_iff]
          exact Or.inr ⟨heq.symm, h⟩
      · refine Bool.or_eq_true_iff.mpr (Or.inr ?_)
        rw [tupleLe_cons_iff]
        exact Or.inl hba

theorem tupleLe_trans (l m n : List Nat) (h1 : tupleLe l m = true)
    (h2 : tupleLe m n = true) : tupleLe l n = true := by
  induction l generalizing m n with
  | nil => simp [tupleLe]
  | cons a as ih =>
    cases m with
    | nil => simp [tupleLe] at h1
    | cons b bs =>
      cases n with
      | nil => simp [tupleLe] at h2
      | cons c cs =>
        rw [tupleLe_cons_iff] at h1 h2 ⊢
        rcases h1 with h1 | ⟨h1e, h1t⟩
        · rcases h2 with h2 | ⟨h2e, h2t⟩
          · exact Or.inl (Nat.lt_trans h1 h2)
          · exact Or.inl (h2e ▸ h1)
        · rcases h2 with h2 | ⟨h2e, h2t⟩
          · exact Or.inl (h1e ▸ h2)
          · exact Or.inr ⟨h1e.trans h2e, ih bs cs h1t h2t⟩

theorem release_le_refl (d : Release) : release_le d d = true := tupleLe_refl _

theorem release_le_trans (d e f : Release) (h1 : release_le d e = true)
    (h2 : release_le e f = true) : release_le d f = true :=
  tupleLe_trans _ _ _ h1 h2

theorem release_le_total (d e : Release) : (release_le d e || release_le e d) = true :=
  tupleLe_total _ _

theorem getLast_is_max (l : List Release) (h : l ≠ [])
    (hp : l.Pairwise (fun x y => release_le x y = true)) (x : Release) (hx : x ∈ l) :
    release_le x (l.getLast h) = true := by
  induction l with
  | nil => exact absurd rfl h
  | cons a t ih =>
    cases t with
    | nil =>
      have hxa : x = a := by simpa using hx
      subst hxa
      exact release_le_refl x
    | cons b t2 =>
      rw [List.getLast_cons (by simp)]
      rcases List.mem_cons.mp hx with rfl | hx2
      · exact (List.pairwise_cons.mp hp).1 _ (List.getLast_mem (by simp))
      · exact ih (by simp) (List.pairwise_cons.mp hp).2 hx2

theorem mergeSort_singleton_eq (x : Release) : [x].mergeSort release_le = [x] :=
  List.perm_singleton.mp (List.mergeSort_perm [x] release_le)

theorem node_install_fetches_index (env : SysEnv) (tr : List Effect) (d : Release)
    (hc : env.consent = true) (hd : selected_lts env.index = some d) :
    Effect.fetchIndex idx_url ∈ (node_install env tr).1 := by
  unfold node_install
  rw [hc, hd]
  dsimp only
  by_cases ha : env.isAdmin = true
  · rw [if_pos ha]
    cases hna : env.whichNodeAfter with
    | none => simp
    | some node2 =>
      cases hma : env.whichNpmAfter with
      | none => simp
      | some npm2 =>
        cases hva : env.nodeVerAfter with
        | none => simp
        | some nv2 =>
          cases hwa : env.npmVerAfter with
          | none => simp
          | some pv2 => simp
  · rw [if_neg ha]
    cases hna : env.whichNodeAfter with
    | none => simp
    | some node2 =>
      cases hma : env.whichNpmAfter with
      | none => simp
      | some npm2 =>
        cases hva : env.nodeVerAfter with
        | none => simp
        | some nv2 =>
          cases hwa : env.npmVerAfter with
          | none => simp
          | some pv2 => simp

/-- C7: when the toolchain probe fails and the user consents,
`ensure_node` fetches the remote version index, keeps exactly the entries
whose long-term-support marker is truthy, and the entry it selects is one
of them and is maximal among them under component-wise numeric ordering
of the parsed dotted version. -/
theorem bootstrap_selects_max_lts (env : SysEnv) (d : Release)
    (habs : env.whichNode = none ∨ env.whichNpm = none ∨
      env.nodeVer = none ∨ env.npmVer = none)
    (hc : env.consent = true)
    (hd : selected_lts env.index = some d) :
    Effect.fetchIndex idx_url ∈ (ensure_node env).1 ∧
    d ∈ env.index ∧ truthy d.lts = true ∧
    (∀ e ∈ env.index, truthy e.lts = true → release_le e d = true) ∧
    (∀ e : Release, e ∈ lts_entries env.index ↔ (e ∈ env.index ∧ truthy e.lts = true)) := by
  have hsort : ((lts_entries env.index).mergeSort release_le).getLast? = some d := hd
  have hne : (lts_entries env.index).mergeSort release_le ≠ [] := by
    intro h0
    rw [h0] at hsort
    simp at hsort
  have hdl : d = ((lts_entries env.index).mergeSort release_le).getLast hne := by
    have hgl := List.getLast?_eq_getLast ((lts_entries env.index).mergeSort release_le) hne
    rw [hgl] at hsort
    exact (Option.some_inj.mp hsort).symm
  have hpair : ((lts_entries env.index).mergeSort release_le).Pairwise
      (fun x y => release_le x y = true) :=
    List.sorted_mergeSort release_le_trans release_le_total _
  have hdmem : d ∈ lts_entries env.index := by
    rw [hdl]
    exact List.mem_mergeSort.mp (List.getLast_mem hne)
  refine ⟨?_, (List.mem_filter.mp hdmem).1, (List.mem_filter.mp hdmem).2, ?_, ?_⟩
  · have hrun : ∃ tr, ensure_node env = node_install env tr := by
      unfold ensure_node
      rcases habs with h | h | h | h
      · rw [h]
        cases env.whichNpm with
        | none => exact ⟨[], rfl⟩
        | some npm => exact ⟨[], rfl⟩
      · rw [h]
        cases env.whichNode with
        | none => exact ⟨[], rfl⟩
        | some node => exact ⟨[], rfl⟩
      · cases hwn : env.whichNode with
        | none => exact ⟨[], rfl⟩
        | some node =>
          cases hwm : env.whichNpm with
          | none => exact ⟨[], rfl⟩
          | some npm =>
            rw [h]
            exact ⟨[Effect.versionQuery node], rfl⟩
      · cases hwn : env.whichNode with
        | none => exact ⟨[], rfl⟩
        | some node =>
          cases hwm : env.whichNpm with
          | none => exact ⟨[], rfl⟩
          | some npm =>
            cases hnv : env.nodeVer with
            | none => exact ⟨[Effect.versionQuery node], rfl⟩
            | some nv =>
              rw [h]
              exact ⟨[Effect.versionQuery node, Effect.versionQuery npm], rfl⟩
    rcases hrun with ⟨tr, hrun⟩
    rw [hrun]
    exact node_install_fetches_index env tr d hc hd
  · intro e hei het
    have hmem : e ∈ (lts_entries env.index).mergeSort release_le :=
      List.mem_mergeSort.mpr (List.mem_filter.mpr ⟨hei, het⟩)
    rw [hdl]
    exact getLast_is_max _ hne hpair e hmem
  · intro e
    exact List.mem_filter

/-- Closed witness for C7: a remote index holding one non-LTS and one LTS
entry; the LTS entry is fetched, kept and selected. -/
theorem bootstrap_selects_max_lts_witness :
    selected_lts sys_bootstrap_env.index =
      some { version := "v20.11.1", lts := PyVal.vstr "Iron" } ∧
    (Effect.fetchIndex idx_url ∈ (ensure_node sys_bootstrap_env).1 ∧
      { version := "v20.11.1", lts := PyVal.vstr "Iron" } ∈ sys_bootstrap_env.index ∧
      truthy (PyVal.vstr "Iron") = true ∧
      (∀ e ∈ sys_bootstrap_env.index, truthy e.lts = true →
        release_le e { version := "v20.11.1", lts := PyVal.vstr "Iron" } = true) ∧
      (∀ e : Release, e ∈ lts_entries sys_bootstrap_env.index ↔
        (e ∈ sys_bootstrap_env.index ∧ truthy e.lts = true))) :=
  have hfilter : lts_entries sys_bootstrap_env.index =
      [{ version := "v20.11.1", lts := PyVal.vstr "Iron" }] := by decide
  have hd : selected_lts sys_bootstrap_env.index =
      some { version := "v20.11.1", lts := PyVal.vstr "Iron" } := by
    unfold selected_lts
    rw [hfilter, mergeSort_singleton_eq]
    rfl
  ⟨hd, bootstrap_selects_max_lts sys_bootstrap_env _ (Or.inl rfl) rfl hd⟩
